import Mathlib

/-!
Verification of the multi-provider restaurant search aggregation engine
(`main.go`) against its natural-language specification.

Shallow embedding conventions:
* Go `float64` values are modelled as `ℚ` where the code only does field
  arithmetic and comparisons (ratings, review counts, coordinates), and as
  `ℝ` where the code calls transcendental functions (the haversine
  distance); the `Distance` field of a record is therefore an `ℝ`.
* Go `time.Time` is modelled as an absolute `ℝ` timestamp measured in
  hours, so the 48-hour cache TTL is the constant `48`.
* Fallible provider calls are modelled as `Except String`/oracle inputs.
-/

namespace RestaurantSearch

/-- `SearchStats` from `main.go`: counters describing how a result set was
produced.  Go `int` counters are modelled as `ℕ`. -/
structure SearchStats where
  googlePagesSearched : ℕ := 0
  googleSearchQueries : ℕ := 0
  googleResultsRaw : ℕ := 0
  googleResultsFiltered : ℕ := 0
  osmResultsTotal : ℕ := 0
  totalBeforeDedup : ℕ := 0
  totalAfterDedup : ℕ := 0
  cachedResult : Bool := false
  deriving Repr, DecidableEq

/-- `Restaurant` from `main.go`: the unified venue record produced by both
provider adapters. -/
structure Restaurant where
  name : String
  rating : ℚ
  reviewCount : ℤ
  priceLevel : ℤ
  type : String
  latitude : ℚ
  longitude : ℚ
  address : String
  distance : ℝ
  photoReference : String
  placeID : String

/-- `calculateWeightedScore` from `main.go`: Bayesian average
`(v*R + m*C) / (v + m)` with `m = 15` and `C = 3.5`. -/
def calculateWeightedScore (rating : ℚ) (reviewCount : ℤ) : ℚ :=
  ((reviewCount : ℚ) * rating + 15 * (7 / 2)) / ((reviewCount : ℚ) + 15)

/-- C2: the weighted score equals the neutral prior `3.5` at zero reviews,
ranks a `4.8`-rated venue with `10000` reviews above a `5.0`-rated venue
with one review, is monotone in the rating for a fixed review count, is
strictly increasing in the review count when the rating exceeds `3.5`, and
converges to the rating as the review count grows without bound. -/
theorem calculateWeightedScore_spec :
    (∀ r : ℚ, calculateWeightedScore r 0 = 7 / 2) ∧
    (calculateWeightedScore 5 1 < calculateWeightedScore (24 / 5) 10000) ∧
    (∀ (v : ℤ) (r₁ r₂ : ℚ), 0 ≤ v → r₁ ≤ r₂ →
      calculateWeightedScore r₁ v ≤ calculateWeightedScore r₂ v) ∧
    (∀ (r : ℚ) (v₁ v₂ : ℤ), 0 ≤ v₁ → v₁ < v₂ → 7 / 2 < r →
      calculateWeightedScore r v₁ < calculateWeightedScore r v₂) ∧
    (∀ r ε : ℚ, 0 < ε → ∃ N : ℤ, ∀ v : ℤ, N ≤ v →
      |calculateWeightedScore r v - r| < ε) := by
  refine ⟨?_, ?_, ?_, ?_, ?_⟩
  · intro r
    norm_num [calculateWeightedScore]
  · norm_num [calculateWeightedScore]
  · intro v r₁ r₂ hv hr
    have hv' : (0 : ℚ) ≤ (v : ℚ) := by exact_mod_cast hv
    have hden : (0 : ℚ) < (v : ℚ) + 15 := by linarith
    unfold calculateWeightedScore
    rw [div_le_div_iff₀ hden hden]
    nlinarith [mul_le_mul_of_nonneg_left hr hv']
  · intro r v₁ v₂ h1 h12 hr
    have c1 : (0 : ℚ) ≤ (v₁ : ℚ) := by exact_mod_cast h1
    have c12 : (v₁ : ℚ) < (v₂ : ℚ) := by exact_mod_cast h12
    have d1 : (0 : ℚ) < (v₁ : ℚ) + 15 := by linarith
    have d2 : (0 : ℚ) < (v₂ : ℚ) + 15 := by linarith
    unfold calculateWeightedScore
    rw [div_lt_div_iff₀ d1 d2]
    nlinarith [mul_pos (show (0 : ℚ) < r - 7 / 2 by linarith)
      (show (0 : ℚ) < (v₂ : ℚ) - (v₁ : ℚ) by linarith)]
  · intro r ε hε
    refine ⟨max 0 ⌈|105 / 2 - 15 * r| / ε⌉, fun v hv => ?_⟩
    have hv0 : (0 : ℤ) ≤ v := le_trans (le_max_left _ _) hv
    have hvc : ((⌈|105 / 2 - 15 * r| / ε⌉ : ℤ) : ℚ) ≤ (v : ℚ) := by
      exact_mod_cast le_trans (le_max_right _ _) hv
    have hle : |105 / 2 - 15 * r| / ε ≤ (v : ℚ) := le_trans (Int.le_ceil _) hvc
    have hnum : |105 / 2 - 15 * r| ≤ (v : ℚ) * ε := (div_le_iff₀ hε).mp hle
    have hv0' : (0 : ℚ) ≤ (v : ℚ) := by exact_mod_cast hv0
    have hden : (0 : ℚ) < (v : ℚ) + 15 := by linarith
    have h1 : calculateWeightedScore r v - r = (105 / 2 - 15 * r) / ((v : ℚ) + 15) := by
      unfold calculateWeightedScore
      field_simp
      ring
    rw [h1, abs_div, abs_of_pos hden, div_lt_iff₀ hden]
    nlinarith [abs_nonneg (105 / 2 - 15 * r)]

/-- Witness for `calculateWeightedScore_spec`: instantiates each
hypothesis-bearing conjunct at concrete inputs. -/
theorem calculateWeightedScore_spec_witness :
    calculateWeightedScore 3 10 ≤ calculateWeightedScore 4 10 ∧
    calculateWeightedScore 4 10 < calculateWeightedScore 4 20 ∧
    ∃ N : ℤ, ∀ v : ℤ, N ≤ v → |calculateWeightedScore 4 v - 4| < 1 :=
  ⟨calculateWeightedScore_spec.2.2.1 10 3 4 (by norm_num) (by norm_num),
   calculateWeightedScore_spec.2.2.2.1 4 10 20 (by norm_num) (by norm_num) (by norm_num),
   calculateWeightedScore_spec.2.2.2.2 4 1 (by norm_num)⟩

/-- The swap test of the inner loop of `sortRestaurantsByRating` in
`main.go`: entry `x` (at the smaller index) is swapped with entry `y` when
`scoreI < scoreJ`, or the scores are equal and `x` is farther away. -/
def sortSwap (x y : Restaurant) : Prop :=
  calculateWeightedScore x.rating x.reviewCount <
      calculateWeightedScore y.rating y.reviewCount ∨
    (calculateWeightedScore x.rating x.reviewCount =
        calculateWeightedScore y.rating y.reviewCount ∧
      y.distance < x.distance)

/-- The ranking contract: `x` may appear before `y` when `x` has the
strictly larger weighted score, or the scores are equal and `x` is at most
as far away. -/
def rankedBefore (x y : Restaurant) : Prop :=
  calculateWeightedScore y.rating y.reviewCount <
      calculateWeightedScore x.rating x.reviewCount ∨
    (calculateWeightedScore x.rating x.reviewCount =
        calculateWeightedScore y.rating y.reviewCount ∧
      x.distance ≤ y.distance)

theorem rankedBefore_refl (x : Restaurant) : rankedBefore x x :=
  Or.inr ⟨rfl, le_refl _⟩

theorem not_sortSwap_iff {x y : Restaurant} : ¬sortSwap x y ↔ rankedBefore x y := by
  unfold sortSwap rankedBefore
  constructor
  · intro h
    rcases lt_trichotomy (calculateWeightedScore x.rating x.reviewCount)
        (calculateWeightedScore y.rating y.reviewCount) with hlt | heq | hgt
    · exact absurd (Or.inl hlt) h
    · refine Or.inr ⟨heq, ?_⟩
      by_contra hd
      exact h (Or.inr ⟨heq, lt_of_not_le hd⟩)
    · exact Or.inl hgt
  · rintro (hgt | ⟨heq, hle⟩) (hlt | ⟨heq', hgt'⟩)
    · exact absurd hgt (not_lt_of_lt hlt)
    · exact absurd heq' (ne_of_gt hgt)
    · exact absurd hlt (not_lt_of_le (le_of_eq heq.symm))
    · exact absurd hgt' (not_lt_of_le hle)

theorem sortSwap_ranked {x y : Restaurant} (h : sortSwap x y) : rankedBefore y x := by
  rcases h with hlt | ⟨heq, hd⟩
  · exact Or.inl hlt
  · exact Or.inr ⟨heq.symm, le_of_lt hd⟩

theorem rankedBefore_trans {x y z : Restaurant} (hxy : rankedBefore x y)
    (hyz : rankedBefore y z) : rankedBefore x z := by
  rcases hxy with h1 | ⟨e1, d1⟩ <;> rcases hyz with h2 | ⟨e2, d2⟩
  · exact Or.inl (lt_trans h2 h1)
  · exact Or.inl (e2 ▸ h1)
  · exact Or.inl (e1 ▸ h2)
  · exact Or.inr ⟨e1.trans e2, le_trans d1 d2⟩

open Classical in
/-- One pass of the inner loop of `sortRestaurantsByRating` for a fixed
outer index: `c` is the current occupant of slot `i`, the list is the
suffix `a[i+1..]`; the pass swaps whenever the source's swap test fires
and returns the final occupant of slot `i` together with the updated
suffix. -/
noncomputable def bubbleStep (c : Restaurant) : List Restaurant → Restaurant × List Restaurant
  | [] => (c, [])
  | y :: ys =>
    if sortSwap c y then
      let p := bubbleStep y ys
      (p.1, c :: p.2)
    else
      let p := bubbleStep c ys
      (p.1, y :: p.2)

theorem bubbleStep_length (c : Restaurant) (l : List Restaurant) :
    (bubbleStep c l).2.length = l.length := by
  induction l generalizing c with
  | nil => rfl
  | cons y ys ih =>
    by_cases h : sortSwap c y <;> simp [bubbleStep, h, ih]

/-- `sortRestaurantsByRating` from `main.go`: the exchange (selection)
sort over the weighted score, with the distance tiebreak, expressed
structurally: each outer iteration runs one `bubbleStep` pass and fixes
the produced front element. -/
noncomputable def sortRestaurantsByRating : List Restaurant → List Restaurant
  | [] => []
  | x :: xs =>
    let p := bubbleStep x xs
    p.1 :: sortRestaurantsByRating p.2
termination_by l => l.length
decreasing_by
  simp only [bubbleStep_length]
  exact Nat.lt_succ_self _

theorem bubbleStep_min (c : Restaurant) (l : List Restaurant) :
    rankedBefore (bubbleStep c l).1 c ∧
      ∀ y ∈ (bubbleStep c l).2, rankedBefore (bubbleStep c l).1 y := by
  induction l generalizing c with
  | nil => exact ⟨rankedBefore_refl c, by simp [bubbleStep]⟩
  | cons y ys ih =>
    by_cases h : sortSwap c y
    · have hyc : rankedBefore y c := sortSwap_ranked h
      obtain ⟨h1, h2⟩ := ih y
      refine ⟨?_, ?_⟩
      · simpa [bubbleStep, h] using rankedBefore_trans h1 hyc
      · intro z hz
        simp only [bubbleStep, h, if_pos] at hz ⊢
        rw [List.mem_cons] at hz
        rcases hz with rfl | hz
        · exact rankedBefore_trans h1 hyc
        · exact h2 z hz
    · have hcy : rankedBefore c y := not_sortSwap_iff.mp h
      obtain ⟨h1, h2⟩ := ih c
      refine ⟨?_, ?_⟩
      · simpa [bubbleStep, h] using h1
      · intro z hz
        simp only [bubbleStep, h, if_neg, not_false_iff] at hz ⊢
        rw [List.mem_cons] at hz
        rcases hz with rfl | hz
        · exact rankedBefore_trans h1 hcy
        · exact h2 z hz

theorem bubbleStep_perm (c : Restaurant) (l : List Restaurant) :
    List.Perm ((bubbleStep c l).1 :: (bubbleStep c l).2) (c :: l) := by
  induction l generalizing c with
  | nil => simp [bubbleStep]
  | cons y ys ih =>
    by_cases h : sortSwap c y
    · simp only [bubbleStep, h, if_pos]
      have h1 : List.Perm ((bubbleStep y ys).1 :: c :: (bubbleStep y ys).2)
          (c :: (bubbleStep y ys).1 :: (bubbleStep y ys).2) :=
        List.Perm.swap c (bubbleStep y ys).1 (bubbleStep y ys).2
      exact h1.trans (List.Perm.cons c (ih y))
    · simp only [bubbleStep, h, if_neg, not_false_iff]
      have h1 : List.Perm ((bubbleStep c ys).1 :: y :: (bubbleStep c ys).2)
          (y :: (bubbleStep c ys).1 :: (bubbleStep c ys).2) :=
        List.Perm.swap y (bubbleStep c ys).1 (bubbleStep c ys).2
      exact (h1.trans (List.Perm.cons y (ih c))).trans (List.Perm.swap c y ys)

theorem sortRestaurantsByRating_perm (l : List Restaurant) :
    List.Perm (sortRestaurantsByRating l) l := by
  have key : ∀ n l, List.length l ≤ n → List.Perm (sortRestaurantsByRating l) l := by
    intro n
    induction n with
    | zero =>
      intro l h
      match l with
      | [] => simp [sortRestaurantsByRating]
      | x :: xs => simp at h
    | succ n ih =>
      intro l h
      match l with
      | [] => simp [sortRestaurantsByRating]
      | x :: xs =>
        rw [sortRestaurantsByRating]
        have hlen : (bubbleStep x xs).2.length ≤ n := by
          rw [bubbleStep_length]
          exact Nat.le_of_succ_le_succ h
        exact (List.Perm.cons _ (ih _ hlen)).trans (bubbleStep_perm x xs)
  exact key l.length l (le_refl _)

theorem sortRestaurantsByRating_pairwise (l : List Restaurant) :
    (sortRestaurantsByRating l).Pairwise rankedBefore := by
  have key : ∀ n l, List.length l ≤ n →
      (sortRestaurantsByRating l).Pairwise rankedBefore := by
    intro n
    induction n with
    | zero =>
      intro l h
      match l with
      | [] => simp [sortRestaurantsByRating]
      | x :: xs => simp at h
    | succ n ih =>
      intro l h
      match l with
      | [] => simp [sortRestaurantsByRating]
      | x :: xs =>
        rw [sortRestaurantsByRating]
        have hlen : (bubbleStep x xs).2.length ≤ n := by
          rw [bubbleStep_length]
          exact Nat.le_of_succ_le_succ h
        refine List.Pairwise.cons ?_ (ih _ hlen)
        intro y hy
        have hy2 : y ∈ (bubbleStep x xs).2 :=
          (sortRestaurantsByRating_perm _).mem_iff.mp hy
        exact (bubbleStep_min x xs).2 y hy2
  exact key l.length l (le_refl _)

/-- C1: the output of `sortRestaurantsByRating` is a permutation of its
input in which, whenever `x` appears before `y`, either
`weightedScore(x) > weightedScore(y)` or the two scores are equal and
`x.Distance ≤ y.Distance`. -/
theorem sortRestaurantsByRating_spec (l : List Restaurant) :
    (sortRestaurantsByRating l).Pairwise (fun x y =>
      calculateWeightedScore y.rating y.reviewCount <
          calculateWeightedScore x.rating x.reviewCount ∨
        (calculateWeightedScore x.rating x.reviewCount =
            calculateWeightedScore y.rating y.reviewCount ∧
          x.distance ≤ y.distance)) ∧
      List.Perm (sortRestaurantsByRating l) l :=
  ⟨sortRestaurantsByRating_pairwise l, sortRestaurantsByRating_perm l⟩

/-- Go's `math.Round`: round to the nearest integer, halves away from
zero. -/
def goRound (x : ℚ) : ℤ :=
  if 0 ≤ x then ⌊x + 1 / 2⌋ else -⌊-x + 1 / 2⌋

/-- ASCII lowercasing of one character, as `strings.ToLower` acts on the
ASCII range (the names in this code base are ASCII). -/
def asciiToLower (c : Char) : Char :=
  if 'A' ≤ c ∧ c ≤ 'Z' then Char.ofNat (c.toNat + 32) else c

/-- Go `strings.ToLower`. -/
def goToLower (s : String) : String :=
  ⟨s.data.map asciiToLower⟩

/-- Go `unicode.IsSpace` on the ASCII range (space, tab, newline,
vertical tab, form feed, carriage return). -/
def goIsSpace (c : Char) : Bool :=
  c = ' ' || c = '\t' || c = '\n' || c = '\x0b' || c = '\x0c' || c = '\r'

/-- Go `strings.TrimSpace`: drop whitespace from both ends. -/
def goTrimSpace (s : String) : String :=
  ⟨((s.data.dropWhile goIsSpace).reverse.dropWhile goIsSpace).reverse⟩

/-- Go `strings.HasPrefix`. -/
def goHasPrefix (s p : String) : Bool :=
  p.data.isPrefixOf s.data

/-- Go `strings.TrimPrefix`: drop `p` from the front of `s` when present,
otherwise return `s` unchanged. -/
def goTrimPrefix (s p : String) : String :=
  if goHasPrefix s p then ⟨s.data.drop p.data.length⟩ else s

/-- Substring search over character lists (helper for Go
`strings.Contains`). -/
def listContainsSub : List Char → List Char → Bool
  | _, [] => true
  | [], _ :: _ => false
  | h :: t, n :: m => (n :: m).isPrefixOf (h :: t) || listContainsSub t (n :: m)

/-- Go `strings.Contains`. -/
def goContains (s sub : String) : Bool :=
  listContainsSub s.data sub.data

/-- The name normalisation of `deduplicateRestaurants` in `main.go`:
whitespace-trim, lowercase, then strip the `"[google] "` and `"[osm] "`
provider markers (in that order). -/
def normalizeDedupName (s : String) : String :=
  goTrimPrefix (goTrimPrefix (goToLower (goTrimSpace s)) "[google] ") "[osm] "

/-- The dedup key of `deduplicateRestaurants` in `main.go`.  The source
builds the string `name ++ "_" ++ fmt6 lat ++ "_" ++ fmt6 lon` from the
normalised name and the coordinates snapped to the `0.0005°` grid
(`math.Round(x/0.0005)*0.0005`, then `%.6f`).  Distinct grid indices
yield distinct `%.6f` renderings (grid spacing `0.0005` is above the
`10⁻⁶` print granularity) and the numeric parts contain no underscore,
so key-string equality coincides with equality of the triple
(normalised name, lat grid index, lon grid index), which is how the key
is modelled. -/
def dedupKey (r : Restaurant) : String × ℤ × ℤ :=
  (normalizeDedupName r.name, goRound (r.latitude / 0.0005), goRound (r.longitude / 0.0005))

/-- The loop of `deduplicateRestaurants` in `main.go`: walk the list,
keeping a record when its key has not been seen before. -/
def dedupGo (seen : List (String × ℤ × ℤ)) : List Restaurant → List Restaurant
  | [] => []
  | r :: rest =>
    if dedupKey r ∈ seen then dedupGo seen rest
    else r :: dedupGo (dedupKey r :: seen) rest

/-- `deduplicateRestaurants` from `main.go`. -/
def deduplicateRestaurants (rs : List Restaurant) : List Restaurant :=
  dedupGo [] rs

/-- Modelled from the claim's wording: keep a record iff it is the first
occurrence of its dedup key; every later record with an identical key is
dropped. -/
def keepFirstOccurrences : List Restaurant → List Restaurant
  | [] => []
  | r :: rest =>
    r :: keepFirstOccurrences (rest.filter (fun s => dedupKey s ≠ dedupKey r))
termination_by l => l.length
decreasing_by
  exact Nat.lt_succ_of_le (List.length_filter_le _ _)

theorem filter_notMem_cons (rest : List Restaurant) (k : String × ℤ × ℤ)
    (seen : List (String × ℤ × ℤ)) :
    rest.filter (fun r => dedupKey r ∉ k :: seen) =
      (rest.filter (fun r => dedupKey r ∉ seen)).filter (fun r => dedupKey r ≠ k) := by
  rw [List.filter_filter]
  apply List.filter_congr
  intro x _
  by_cases h1 : dedupKey x = k <;> by_cases h2 : dedupKey x ∈ seen <;>
    simp [h1, h2]

theorem dedupGo_keepFirst :
    ∀ (n : ℕ) (l : List Restaurant), l.length ≤ n → ∀ seen,
      dedupGo seen l = keepFirstOccurrences (l.filter (fun r => dedupKey r ∉ seen)) := by
  intro n
  induction n with
  | zero =>
    intro l h seen
    match l with
    | [] => simp [dedupGo, keepFirstOccurrences]
    | x :: xs => simp at h
  | succ n ih =>
    intro l h seen
    match l with
    | [] => simp [dedupGo, keepFirstOccurrences]
    | r :: rest =>
      rw [List.filter_cons]
      by_cases hs : dedupKey r ∈ seen
      · rw [if_neg (by simp [hs])]
        rw [dedupGo, if_pos hs]
        exact ih rest (Nat.le_of_succ_le_succ h) seen
      · rw [if_pos (by simp [hs])]
        rw [dedupGo, if_neg hs, keepFirstOccurrences,
          ih rest (Nat.le_of_succ_le_succ h) (dedupKey r :: seen),
          filter_notMem_cons]

theorem deduplicateRestaurants_eq_keepFirst (rs : List Restaurant) :
    deduplicateRestaurants rs = keepFirstOccurrences rs := by
  have h := dedupGo_keepFirst rs.length rs (le_refl _) []
  simpa [deduplicateRestaurants] using h

/-- The commercial-provider record of end-to-end scenario 2, as it reaches
dedup in both-mode (name tagged with the provider marker). -/
def joeGoogle : Restaurant :=
  { name := "[GOOGLE] Joe\x27s Pizza", rating := 9 / 2, reviewCount := 200, priceLevel := 2,
    type := "Pizza Restaurant", latitude := 40.71280, longitude := -74.00600,
    address := "7 Carmine St", distance := 0, photoReference := "", placeID := "goog1" }

/-- The community-provider record of end-to-end scenario 2. -/
def joeOSM : Restaurant :=
  { name := "[OSM] joe\x27s pizza", rating := 0, reviewCount := 0, priceLevel := 0,
    type := "Pizza", latitude := 40.71283, longitude := -74.00601,
    address := "", distance := 0, photoReference := "", placeID := "" }

/-- C3: deduplication keeps exactly the first occurrence of each key
(normalised name + coordinates snapped to the `0.0005°` grid), and the
scenario-2 pair — `"Joe's Pizza"` at `(40.71280, -74.00600)` from the
commercial provider and `"joe's pizza"` at `(40.71283, -74.00601)` from
the community provider — collapses to exactly the first record. -/
theorem deduplicateRestaurants_spec :
    (∀ rs : List Restaurant, deduplicateRestaurants rs = keepFirstOccurrences rs) ∧
      deduplicateRestaurants [joeGoogle, joeOSM] = [joeGoogle] := by
  refine ⟨deduplicateRestaurants_eq_keepFirst, ?_⟩
  have hname : normalizeDedupName joeOSM.name = normalizeDedupName joeGoogle.name := by
    decide
  have hlat : goRound (joeOSM.latitude / 0.0005) = goRound (joeGoogle.latitude / 0.0005) := by
    show goRound ((40.71283 : ℚ) / 0.0005) = goRound ((40.71280 : ℚ) / 0.0005)
    rw [goRound, if_pos (by norm_num), goRound, if_pos (by norm_num)]
    norm_num
  have hlon : goRound (joeOSM.longitude / 0.0005) = goRound (joeGoogle.longitude / 0.0005) := by
    show goRound ((-74.00601 : ℚ) / 0.0005) = goRound ((-74.00600 : ℚ) / 0.0005)
    rw [goRound, if_neg (by norm_num), goRound, if_neg (by norm_num)]
    norm_num
  have hkey : dedupKey joeOSM = dedupKey joeGoogle := by
    unfold dedupKey
    rw [hname, hlat, hlon]
  simp [deduplicateRestaurants, dedupGo, hkey]

/-- Go `math.Atan2 y x` on the reals (signed zeros collapse to `0`). -/
noncomputable def atan2 (y x : ℝ) : ℝ :=
  if 0 < x then Real.arctan (y / x)
  else if x < 0 then
    (if 0 ≤ y then Real.arctan (y / x) + Real.pi else Real.arctan (y / x) - Real.pi)
  else
    (if 0 < y then Real.pi / 2 else if y < 0 then -(Real.pi / 2) else 0)

theorem atan2_nonneg {y : ℝ} (x : ℝ) (hy : 0 ≤ y) : 0 ≤ atan2 y x := by
  have hpi := Real.pi_pos
  have harc := Real.neg_pi_div_two_lt_arctan (y / x)
  unfold atan2
  split_ifs with h1 h2 h3 h4
  · have h := Real.arctan_strictMono.monotone (div_nonneg hy (le_of_lt h1))
    rwa [Real.arctan_zero] at h
  all_goals linarith

/-- `calculateDistance` from `main.go`: haversine great-circle distance in
kilometres on a sphere of radius 6371 km; the degree inputs are the
`ℚ`-modelled `float64` coordinates. -/
noncomputable def calculateDistance (lat1 lon1 lat2 lon2 : ℚ) : ℝ :=
  let lat1Rad : ℝ := (lat1 : ℝ) * Real.pi / 180
  let lat2Rad : ℝ := (lat2 : ℝ) * Real.pi / 180
  let dLatRad : ℝ := ((lat2 : ℝ) - (lat1 : ℝ)) * Real.pi / 180
  let dLonRad : ℝ := ((lon2 : ℝ) - (lon1 : ℝ)) * Real.pi / 180
  let a := Real.sin (dLatRad / 2) * Real.sin (dLatRad / 2) +
    Real.cos lat1Rad * Real.cos lat2Rad * Real.sin (dLonRad / 2) * Real.sin (dLonRad / 2)
  let c := 2 * atan2 (Real.sqrt a) (Real.sqrt (1 - a))
  6371 * c

theorem calculateDistance_nonneg (lat1 lon1 lat2 lon2 : ℚ) :
    0 ≤ calculateDistance lat1 lon1 lat2 lon2 := by
  unfold calculateDistance
  dsimp only
  refine mul_nonneg (by norm_num) (mul_nonneg (by norm_num) ?_)
  exact atan2_nonneg _ (Real.sqrt_nonneg _)

theorem calculateDistance_self (lat lon : ℚ) : calculateDistance lat lon lat lon = 0 := by
  unfold calculateDistance
  dsimp only
  norm_num [atan2, Real.sin_zero, Real.sqrt_zero, Real.sqrt_one, Real.arctan_zero]

/-- `cacheTTL` from `main.go` (48 hours), in the model's time unit of
hours. -/
noncomputable def cacheTTL : ℝ := 48

/-- `cacheItem` from `main.go`. -/
structure cacheItem where
  lat : ℚ
  lon : ℚ
  restaurants : List Restaurant
  stats : SearchStats
  expiresAt : ℝ

/-- The radius test shared by `LocationCache.Get` and `LocationCache.Set`:
the haversine distance from the query point to the entry's anchor is at
most `cacheRadiusMeters = 20` metres. -/
def withinCacheRadius (lat lon : ℚ) (it : cacheItem) : Prop :=
  calculateDistance lat lon it.lat it.lon * 1000 ≤ 20

theorem withinCacheRadius_self (lat lon : ℚ) (rs : List Restaurant)
    (stats : SearchStats) (e : ℝ) :
    withinCacheRadius lat lon ⟨lat, lon, rs, stats, e⟩ := by
  unfold withinCacheRadius
  rw [calculateDistance_self]
  norm_num

namespace LocationCache

open Classical in
/-- `LocationCache.Get` from `main.go`: scan the entries in order; an
entry whose expiry has passed (`now.After(expiresAt)`) is skipped; the
first unexpired entry within the 20 m radius is returned, with a copy of
its stats whose `CachedResult` flag is forced `true`. -/
noncomputable def Get : List cacheItem → ℚ → ℚ → ℝ → Option (List Restaurant × SearchStats)
  | [], _, _, _ => none
  | it :: rest, lat, lon, now =>
    if it.expiresAt < now then Get rest lat lon now
    else if withinCacheRadius lat lon it then
      some (it.restaurants, { it.stats with cachedResult := true })
    else Get rest lat lon now

open Classical in
/-- `LocationCache.Set` from `main.go`: overwrite the first entry within
the 20 m radius in place (fresh anchor, records, stats and expiry), or
append a new entry when none matches. -/
noncomputable def Set : List cacheItem → ℚ → ℚ → List Restaurant → SearchStats → ℝ → List cacheItem
  | [], lat, lon, rs, stats, now => [⟨lat, lon, rs, stats, now + cacheTTL⟩]
  | it :: rest, lat, lon, rs, stats, now =>
    if withinCacheRadius lat lon it then ⟨lat, lon, rs, stats, now + cacheTTL⟩ :: rest
    else it :: Set rest lat lon rs stats now

end LocationCache

/-- C6: a `Set` immediately followed by a `Get` at the same coordinates
and time returns found, the stored record list, and the stored stats with
only the `CachedResult` flag forced `true`; the entry stored in the cache
itself keeps the original stats (`Get` returns a copy, mutating
nothing). -/
theorem cache_set_get_roundtrip (items : List cacheItem) (lat lon : ℚ)
    (rs : List Restaurant) (stats : SearchStats) (now : ℝ) :
    LocationCache.Get (LocationCache.Set items lat lon rs stats now) lat lon now =
        some (rs, { stats with cachedResult := true }) ∧
      (⟨lat, lon, rs, stats, now + cacheTTL⟩ : cacheItem) ∈
        LocationCache.Set items lat lon rs stats now := by
  have hfresh : ¬((⟨lat, lon, rs, stats, now + cacheTTL⟩ : cacheItem).expiresAt < now) := by
    show ¬(now + cacheTTL < now)
    unfold cacheTTL
    push_neg
    linarith
  induction items with
  | nil =>
    constructor
    · show LocationCache.Get [⟨lat, lon, rs, stats, now + cacheTTL⟩] lat lon now = _
      rw [LocationCache.Get, if_neg hfresh, if_pos (withinCacheRadius_self _ _ _ _ _)]
    · show _ ∈ [(⟨lat, lon, rs, stats, now + cacheTTL⟩ : cacheItem)]
      exact List.mem_singleton.mpr rfl
  | cons it rest ih =>
    by_cases hw : withinCacheRadius lat lon it
    · rw [LocationCache.Set, if_pos hw]
      constructor
      · rw [LocationCache.Get, if_neg hfresh, if_pos (withinCacheRadius_self _ _ _ _ _)]
      · exact List.mem_cons_self _ _
    · rw [LocationCache.Set, if_neg hw]
      constructor
      · by_cases he : it.expiresAt < now
        · rw [LocationCache.Get, if_pos he]
          exact ih.1
        · rw [LocationCache.Get, if_neg he, if_neg hw]
          exact ih.1
      · exact List.mem_cons_of_mem _ ih.2

/-- C7: `Get` never serves an expired entry — entries whose expiry has
passed are transparent to a read (the result over any entry list equals
the result over the list with the expired entries removed), and in
particular a cache in which every entry is expired always misses. -/
theorem cache_get_ignores_expired :
    (∀ (items : List cacheItem) (lat lon : ℚ) (now : ℝ),
      LocationCache.Get items lat lon now =
        LocationCache.Get (items.filter (fun it => now ≤ it.expiresAt)) lat lon now) ∧
    (∀ (items : List cacheItem) (lat lon : ℚ) (now : ℝ),
      (∀ it ∈ items, it.expiresAt < now) →
        LocationCache.Get items lat lon now = none) := by
  constructor
  · intro items lat lon now
    induction items with
    | nil => rfl
    | cons it rest ih =>
      rw [List.filter_cons]
      by_cases he : it.expiresAt < now
      · rw [if_neg (by simpa using not_le.mpr he), LocationCache.Get, if_pos he]
        exact ih
      · rw [if_pos (by simpa using not_lt.mp he)]
        by_cases hw : withinCacheRadius lat lon it
        · rw [LocationCache.Get, if_neg he, if_pos hw, LocationCache.Get, if_neg he,
            if_pos hw]
        · rw [LocationCache.Get, if_neg he, if_neg hw, LocationCache.Get, if_neg he,
            if_neg hw]
          exact ih
  · intro items lat lon now hall
    induction items with
    | nil => rfl
    | cons it rest ih =>
      rw [LocationCache.Get, if_pos (hall it (List.mem_cons_self _ _))]
      exact ih fun x hx => hall x (List.mem_cons_of_mem _ hx)

/-- Witness for `cache_get_ignores_expired`: a concrete one-entry cache
whose entry expired at time `1` misses when read at time `2`. -/
theorem cache_get_ignores_expired_witness :
    LocationCache.Get [⟨0, 0, [], {}, 1⟩] 0 0 2 = none := by
  apply cache_get_ignores_expired.2
  intro it hit
  rw [List.mem_singleton] at hit
  subst hit
  norm_num

/-- ASCII uppercasing of one character (Go `strings.ToUpper` on ASCII). -/
def asciiToUpper (c : Char) : Char :=
  if 'a' ≤ c ∧ c ≤ 'z' then Char.ofNat (c.toNat - 32) else c

/-- Go `strings.ToUpper`. -/
def goToUpper (s : String) : String :=
  ⟨s.data.map asciiToUpper⟩

/-- Go `strings.Join elems sep`. -/
def stringsJoin : List String → String → String
  | [], _ => ""
  | [x], _ => x
  | x :: y :: xs, sep => x ++ sep ++ stringsJoin (y :: xs) sep

/-- `formatTypeString` from `main.go`: replace underscores by spaces,
split into whitespace-separated fields and capitalise each word. -/
def formatTypeString (value : String) : String :=
  let replaced : String := ⟨value.data.map (fun c => if c = '_' then ' ' else c)⟩
  let parts := (replaced.splitOn " ").filter (fun p => p ≠ "")
  stringsJoin (parts.map (fun p => goToUpper (p.take 1) ++ goToLower (p.drop 1))) " "

/-- `formatAmenityType` from `main.go`. -/
def formatAmenityType (amenity : String) : String :=
  if amenity = "" then "" else formatTypeString amenity

/-- `formatPlaceType` from `main.go`: format the first provider type
tag. -/
def formatPlaceType (placeTypes : List String) : String :=
  match placeTypes with
  | [] => ""
  | t :: _ => formatTypeString t

/-- `shouldUseGenericPhoto` from `main.go`. -/
def shouldUseGenericPhoto (photoRef : String) (rating : ℚ) (reviewCount : ℤ) : Bool :=
  if photoRef = "" then true
  else if photoRef = "GENERIC" then true
  else if 0 < rating ∧ rating < 4 then true
  else if reviewCount < 5 then true
  else false

/-- The tag dictionary of one Overpass element, restricted to the tags
`main.go` reads.  A Go map lookup of a missing key yields `""`, so absent
string tags are the empty string.  The `rating` tag is stored as the
result of `strconv.ParseFloat` (`none` when the tag is absent or does not
parse); `diet k` models the lookup `Tags["diet:" ++ k]`. -/
structure OSMTags where
  name : String := ""
  amenity : String := ""
  cuisine : String := ""
  rating : Option ℚ := none
  addrStreet : String := ""
  addrHousenumber : String := ""
  diet : String → String := fun _ => ""

/-- One Overpass element; `lat`/`lon` are the element's coordinates (for a
way, the provider-computed centre). -/
structure OSMElement where
  lat : ℚ
  lon : ℚ
  tags : OSMTags

/-- `SearchParams` from `main.go` (`FoodCategory` is a Go string type,
modelled as `String`). -/
structure SearchParams where
  lat : ℚ
  lon : ℚ
  categories : List String := []
  keyword : String := ""

/-- The element-to-record conversion of
`findNearbyRestaurantsOSMWithStats` in `main.go`: name falls back to the
amenity tag, the type label prefers the cuisine tag, the rating defaults
to `0` when the tag is absent or unparsable, the address joins the street
and house-number tags, and the distance is the haversine distance from
the query point. -/
noncomputable def osmElementToRestaurant (qlat qlon : ℚ) (e : OSMElement) : Restaurant :=
  let name := if e.tags.name = "" then e.tags.amenity else e.tags.name
  let rt0 := formatAmenityType e.tags.amenity
  let restaurantType := if e.tags.cuisine ≠ "" then formatTypeString e.tags.cuisine else rt0
  let rating : ℚ := match e.tags.rating with | some r => r | none => 0
  let addressParts := (if e.tags.addrStreet ≠ "" then [e.tags.addrStreet] else []) ++
    (if e.tags.addrHousenumber ≠ "" then [e.tags.addrHousenumber] else [])
  { name := name, rating := rating, reviewCount := 0, priceLevel := 0,
    type := restaurantType, latitude := e.lat, longitude := e.lon,
    address := stringsJoin addressParts " ",
    distance := calculateDistance qlat qlon e.lat e.lon,
    photoReference := "", placeID := "" }

/-- One result of the commercial provider's nearby/text search, with the
fields `main.go` reads. -/
structure GooglePlace where
  name : String := ""
  rating : ℚ := 0
  userRatingsTotal : ℤ := 0
  priceLevel : ℤ := 0
  types : List String := []
  lat : ℚ := 0
  lon : ℚ := 0
  vicinity : String := ""
  photoReferences : List String := []
  placeID : String := ""

/-- The place-to-record conversion of
`findNearbyRestaurantsGoogleByTypeWithStats` in `main.go`: the first
photo token is kept unless the generic-photo rule fires (in which case
the sentinel `"GENERIC"` is stored), review counts are clamped at zero
from below, and the rating is taken from the provider as-is. -/
noncomputable def googlePlaceToRestaurant (qlat qlon : ℚ) (p : GooglePlace) : Restaurant :=
  let photoRef0 := match p.photoReferences with | [] => "" | x :: _ => x
  let reviewCount := if 0 < p.userRatingsTotal then p.userRatingsTotal else 0
  let rating := p.rating
  let photoRef := if shouldUseGenericPhoto photoRef0 rating reviewCount then "GENERIC"
    else photoRef0
  { name := p.name, rating := rating, reviewCount := reviewCount,
    priceLevel := p.priceLevel, type := formatPlaceType p.types,
    latitude := p.lat, longitude := p.lon, address := p.vicinity,
    distance := calculateDistance qlat qlon p.lat p.lon,
    photoReference := photoRef, placeID := p.placeID }

/-- The skip test of the result-building loop of
`findNearbyRestaurantsOSMWithStats` in `main.go`: the (lowercased)
keyword is non-empty and neither the name tag nor the cuisine tag
contains it (case-insensitively) nor is the `diet:<keyword>` tag
`"yes"`. -/
def osmDropCond (params : SearchParams) (e : OSMElement) : Prop :=
  goToLower params.keyword ≠ "" ∧
    ¬(goContains (goToLower e.tags.name) (goToLower params.keyword) = true ∨
      goContains (goToLower e.tags.cuisine) (goToLower params.keyword) = true ∨
      e.tags.diet (goToLower params.keyword) = "yes")

instance (params : SearchParams) (e : OSMElement) : Decidable (osmDropCond params e) := by
  unfold osmDropCond
  infer_instance

/-- The result-building loop of `findNearbyRestaurantsOSMWithStats` in
`main.go`: elements failing the keyword post-filter are skipped, the rest
are converted in order. -/
noncomputable def osmProcessElements (params : SearchParams) : List OSMElement → List Restaurant
  | [] => []
  | e :: rest =>
    if osmDropCond params e then
      osmProcessElements params rest
    else
      osmElementToRestaurant params.lat params.lon e :: osmProcessElements params rest

/-- Modelled from the claim's wording: an element survives the keyword
post-filter iff the keyword is empty, or the name tag contains it
(case-insensitively), or the cuisine tag contains it (case-insensitively),
or the `diet:<keyword>` tag equals `"yes"`. -/
def keywordKeepSpec (keyword : String) (e : OSMElement) : Bool :=
  decide (goToLower keyword = "") ||
    goContains (goToLower e.tags.name) (goToLower keyword) ||
    goContains (goToLower e.tags.cuisine) (goToLower keyword) ||
    decide (e.tags.diet (goToLower keyword) = "yes")

theorem keywordKeepSpec_true_iff (keyword : String) (e : OSMElement) :
    keywordKeepSpec keyword e = true ↔
      (goToLower keyword = "" ∨
        goContains (goToLower e.tags.name) (goToLower keyword) = true ∨
        goContains (goToLower e.tags.cuisine) (goToLower keyword) = true ∨
        e.tags.diet (goToLower keyword) = "yes") := by
  unfold keywordKeepSpec
  simp [Bool.or_eq_true, or_assoc]

theorem not_osmDropCond_iff {params : SearchParams} {e : OSMElement} :
    ¬osmDropCond params e ↔ keywordKeepSpec params.keyword e = true := by
  unfold osmDropCond
  rw [keywordKeepSpec_true_iff]
  constructor
  · intro h
    by_cases hk : goToLower params.keyword = ""
    · exact Or.inl hk
    · rcases not_not.mp (not_and.mp h hk) with h1 | h2 | h3
      · exact Or.inr (Or.inl h1)
      · exact Or.inr (Or.inr (Or.inl h2))
      · exact Or.inr (Or.inr (Or.inr h3))
  · rintro (h | h | h | h) ⟨hne, hnm⟩
    · exact hne h
    · exact hnm (Or.inl h)
    · exact hnm (Or.inr (Or.inl h))
    · exact hnm (Or.inr (Or.inr h))

/-- C10: the community adapter's result loop is exactly a keyword
post-filter followed by the element conversion — an element is dropped
iff the keyword is non-empty and neither its name tag nor its cuisine tag
contains the keyword (case-insensitively) nor its `diet:<keyword>` tag is
`"yes"` — and with an empty keyword no element is dropped. -/
theorem osmProcessElements_spec :
    (∀ (params : SearchParams) (elems : List OSMElement),
      osmProcessElements params elems =
        (elems.filter (keywordKeepSpec params.keyword)).map
          (osmElementToRestaurant params.lat params.lon)) ∧
    (∀ (lat lon : ℚ) (cats : List String) (elems : List OSMElement),
      osmProcessElements ⟨lat, lon, cats, ""⟩ elems =
        elems.map (osmElementToRestaurant lat lon)) := by
  have main : ∀ (params : SearchParams) (elems : List OSMElement),
      osmProcessElements params elems =
        (elems.filter (keywordKeepSpec params.keyword)).map
          (osmElementToRestaurant params.lat params.lon) := by
    intro params elems
    induction elems with
    | nil => rfl
    | cons e rest ih =>
      rw [osmProcessElements, List.filter_cons]
      by_cases hkeep : keywordKeepSpec params.keyword e = true
      · rw [if_pos hkeep, if_neg (not_osmDropCond_iff.mpr hkeep), List.map_cons]
        exact congrArg _ ih
      · have hdrop : osmDropCond params e :=
          not_not.mp fun hnd => hkeep (not_osmDropCond_iff.mp hnd)
        rw [if_neg hkeep, if_pos hdrop]
        exact ih
  refine ⟨main, ?_⟩
  intro lat lon cats elems
  rw [main ⟨lat, lon, cats, ""⟩ elems]
  have hkw : ∀ e, keywordKeepSpec (SearchParams.mk lat lon cats "").keyword e = true := by
    intro e
    rw [keywordKeepSpec_true_iff]
    exact Or.inl rfl
  rw [List.filter_eq_self.mpr fun e _ => hkw e]

/-- An Overpass element carrying an out-of-range `rating` tag: OSM tags
are arbitrary strings and the adapter stores the parsed value without
clamping. -/
def badRatingElement : OSMElement :=
  { lat := 40.7, lon := -74, tags := { name := "Over Rated Diner", rating := some (19 / 2) } }

/-- Counterexample to C8 as stated: a community-provider response whose
`rating` tag reads `9.5` yields a record with `Rating = 9.5 > 5`; no
clamping to `[0, 5]` happens for arbitrary provider responses. -/
theorem osm_rating_invariant_counterexample :
    ∃ r ∈ osmProcessElements ⟨0, 0, [], ""⟩ [badRatingElement], 5 < r.rating := by
  refine ⟨osmElementToRestaurant 0 0 badRatingElement, ?_, ?_⟩
  · rw [osmProcessElements, if_neg fun hc => hc.1 rfl]
    exact List.mem_cons_self _ _
  · show (5 : ℚ) < (osmElementToRestaurant 0 0 badRatingElement).rating
    norm_num [osmElementToRestaurant, badRatingElement]

/-- C8 (amended): every record produced by either adapter's conversion has
a nonnegative distance, and its rating lies in `[0, 5]` provided the
provider-supplied rating does (for the community adapter: the parsed
`rating` tag, which defaults to `0` when absent). -/
theorem adapter_record_invariants :
    (∀ (qlat qlon : ℚ) (e : OSMElement),
      0 ≤ (osmElementToRestaurant qlat qlon e).distance) ∧
    (∀ (qlat qlon : ℚ) (e : OSMElement), e.tags.rating = none →
      (osmElementToRestaurant qlat qlon e).rating = 0) ∧
    (∀ (qlat qlon : ℚ) (e : OSMElement) (q : ℚ), e.tags.rating = some q →
      0 ≤ q → q ≤ 5 →
      0 ≤ (osmElementToRestaurant qlat qlon e).rating ∧
        (osmElementToRestaurant qlat qlon e).rating ≤ 5) ∧
    (∀ (qlat qlon : ℚ) (p : GooglePlace),
      0 ≤ (googlePlaceToRestaurant qlat qlon p).distance) ∧
    (∀ (qlat qlon : ℚ) (p : GooglePlace), 0 ≤ p.rating → p.rating ≤ 5 →
      0 ≤ (googlePlaceToRestaurant qlat qlon p).rating ∧
        (googlePlaceToRestaurant qlat qlon p).rating ≤ 5) := by
  refine ⟨?_, ?_, ?_, ?_, ?_⟩
  · intro qlat qlon e
    show 0 ≤ calculateDistance qlat qlon e.lat e.lon
    exact calculateDistance_nonneg _ _ _ _
  · intro qlat qlon e h
    simp only [osmElementToRestaurant, h]
  · intro qlat qlon e q h h0 h5
    constructor
    · simp only [osmElementToRestaurant, h]
      exact h0
    · simp only [osmElementToRestaurant, h]
      exact h5
  · intro qlat qlon p
    show 0 ≤ calculateDistance qlat qlon p.lat p.lon
    exact calculateDistance_nonneg _ _ _ _
  · intro qlat qlon p h0 h5
    exact ⟨h0, h5⟩

/-- Witness for `adapter_record_invariants`: instantiates the
hypothesis-bearing conjuncts at concrete inputs. -/
theorem adapter_record_invariants_witness :
    (osmElementToRestaurant 0 0 ⟨1, 1, {}⟩).rating = 0 ∧
    (0 ≤ (osmElementToRestaurant 0 0 ⟨1, 1, { rating := some 4 }⟩).rating ∧
      (osmElementToRestaurant 0 0 ⟨1, 1, { rating := some 4 }⟩).rating ≤ 5) ∧
    (0 ≤ (googlePlaceToRestaurant 0 0 { rating := 9 / 2 }).rating ∧
      (googlePlaceToRestaurant 0 0 { rating := 9 / 2 }).rating ≤ 5) :=
  ⟨adapter_record_invariants.2.1 0 0 ⟨1, 1, {}⟩ rfl,
   adapter_record_invariants.2.2.1 0 0 ⟨1, 1, { rating := some 4 }⟩ 4 rfl
     (by norm_num) (by norm_num),
   adapter_record_invariants.2.2.2.2 0 0 { rating := 9 / 2 } (by norm_num) (by norm_num)⟩

/-- `cuisineKeywordsForSearch` from `main.go`. -/
def cuisineKeywordsForSearch : List String :=
  ["indian", "chinese", "thai", "japanese", "korean", "vietnamese", "italian",
   "mexican", "french", "greek", "mediterranean", "american", "seafood", "steak",
   "barbecue", "pizza", "burger", "sushi", "ramen", "vegetarian", "vegan",
   "breakfast", "brunch"]

/-- The source tags of the concurrent searches spawned by
`findNearbyRestaurantsGoogleMultipleWithStats` in `main.go`: one per
requested category, plus — when `"restaurant"` is requested — either the
cuisine-keyword searches (tagged `cuisine:<kw>`) and the two text
searches (tagged `text:<q>`) when no keyword is set, or two
keyword-combining text searches when one is. -/
def fanOutSources (categories : List String) (keyword : String) : List String :=
  let includesRestaurantSearch := categories.contains "restaurant"
  let cuisineSearches : List String :=
    if includesRestaurantSearch = true ∧ keyword = "" then cuisineKeywordsForSearch else []
  let textSearchQueries : List String :=
    if includesRestaurantSearch = true ∧ keyword = "" then ["restaurant", "food"]
    else if includesRestaurantSearch = true ∧ keyword ≠ "" then
      [keyword ++ " restaurant", keyword ++ " food"]
    else []
  categories ++ cuisineSearches.map (fun kw => "cuisine:" ++ kw) ++
    textSearchQueries.map (fun q => "text:" ++ q)

/-- The supplementary-source test of the collection loop in
`findNearbyRestaurantsGoogleMultipleWithStats`. -/
def isSupplementarySource (s : String) : Bool :=
  goHasPrefix s "cuisine:" || goHasPrefix s "text:"

/-- One step of the collection loop of
`findNearbyRestaurantsGoogleMultipleWithStats` in `main.go`: failures of
supplementary searches are only logged, failures of category searches are
recorded as `"<source>: <error>"`, successful results are concatenated. -/
def collectStep (acc : List Restaurant × List String)
    (a : String × Except String (List Restaurant)) : List Restaurant × List String :=
  match a.2 with
  | .error e =>
    if isSupplementarySource a.1 = true then acc
    else (acc.1, acc.2 ++ [a.1 ++ ": " ++ e])
  | .ok rs => (acc.1 ++ rs, acc.2)

/-- The tail of `findNearbyRestaurantsGoogleMultipleWithStats` in
`main.go`: collect all arrived results, fail with the combined message
iff nothing was gathered and at least one category search failed
(`len(allRestaurants) == 0 && len(errors) > 0`), otherwise deduplicate
and rank. -/
noncomputable def collectFanOut
    (arrivals : List (String × Except String (List Restaurant))) :
    Except String (List Restaurant) :=
  let r := arrivals.foldl collectStep ([], [])
  if r.1.length = 0 ∧ 0 < r.2.length then
    .error ("all category searches failed: " ++ stringsJoin r.2 "; ")
  else
    .ok (sortRestaurantsByRating (deduplicateRestaurants r.1))

/-- `findNearbyRestaurantsGoogleMultipleWithStats` from `main.go`,
modelled over an oracle giving each spawned search's outcome (arrival
order is the spawn order; only the multiset of arrivals matters to the
error decision). -/
noncomputable def findNearbyRestaurantsGoogleMultipleModel
    (categories : List String) (keyword : String)
    (oracle : String → Except String (List Restaurant)) :
    Except String (List Restaurant) :=
  collectFanOut ((fanOutSources categories keyword).map (fun s => (s, oracle s)))

/-- The concatenation of all successful calls' results (the combined
result set). -/
def combinedResults (arrivals : List (String × Except String (List Restaurant))) :
    List Restaurant :=
  arrivals.foldr (fun a acc => match a.2 with | .ok rs => rs ++ acc | .error _ => acc) []

/-- The error strings recorded for failed category (non-supplementary)
calls, in arrival order. -/
def categoryErrorStrings (arrivals : List (String × Except String (List Restaurant))) :
    List String :=
  arrivals.filterMap fun a =>
    match a.2 with
    | .error e => if isSupplementarySource a.1 = true then none else some (a.1 ++ ": " ++ e)
    | .ok _ => none

theorem collect_foldl (arrivals : List (String × Except String (List Restaurant))) :
    ∀ acc, arrivals.foldl collectStep acc =
      (acc.1 ++ combinedResults arrivals, acc.2 ++ categoryErrorStrings arrivals) := by
  induction arrivals with
  | nil =>
    intro acc
    simp [combinedResults, categoryErrorStrings]
  | cons a rest ih =>
    intro acc
    rw [List.foldl_cons, ih]
    match ha : a.2 with
    | .ok rs =>
      simp [collectStep, ha, combinedResults, categoryErrorStrings, List.append_assoc]
    | .error e =>
      by_cases hs : isSupplementarySource a.1 = true <;>
        simp [collectStep, ha, hs, combinedResults, categoryErrorStrings, List.append_assoc]

theorem listContainsSub_complete :
    ∀ {hay needle : List Char}, needle <:+: hay → listContainsSub hay needle = true := by
  intro hay
  induction hay with
  | nil =>
    intro needle h
    match needle with
    | [] => rfl
    | n :: m =>
      exact absurd (List.eq_nil_of_infix_nil h) (by simp)
  | cons h t ih =>
    intro needle hin
    match needle with
    | [] => rfl
    | n :: m =>
      rw [listContainsSub, Bool.or_eq_true]
      rcases List.infix_cons_iff.mp hin with hp | hi
      · exact Or.inl (List.isPrefixOf_iff_prefix.mpr hp)
      · exact Or.inr (ih hi)

theorem mem_stringsJoin_part {m : String} :
    ∀ {l : List String} (sep : String), m ∈ l → m.data <:+: (stringsJoin l sep).data := by
  intro l
  induction l with
  | nil =>
    intro sep h
    exact absurd h (List.not_mem_nil m)
  | cons x xs ih =>
    intro sep h
    match xs with
    | [] =>
      rw [List.mem_singleton] at h
      subst h
      exact List.infix_refl _
    | y :: ys =>
      rw [stringsJoin]
      rcases List.mem_cons.mp h with rfl | hmem
      · rw [String.data_append, String.data_append]
        exact ((List.prefix_append m.data _).trans
          (List.prefix_append _ _)).isInfix
      · rw [String.data_append]
        exact (ih sep hmem).trans ((List.suffix_append _ _).isInfix)

theorem collectFanOut_unfold (arrivals : List (String × Except String (List Restaurant))) :
    collectFanOut arrivals =
      if (combinedResults arrivals).length = 0 ∧ 0 < (categoryErrorStrings arrivals).length then
        Except.error ("all category searches failed: " ++
          stringsJoin (categoryErrorStrings arrivals) "; ")
      else
        Except.ok (sortRestaurantsByRating (deduplicateRestaurants (combinedResults arrivals))) := by
  unfold collectFanOut
  rw [collect_foldl arrivals ([], [])]
  simp

/-- C5 (amended): supplementary (`cuisine:`/`text:`) failures alone never
make the fan-out fail; it returns an error iff the combined result set is
empty and at least one category call failed; and the combined error
message contains, for every failed category call, that call's
`"<source tag>: <error>"` entry (supplementary tags are *not* listed). -/
theorem fanOut_error_policy :
    (∀ arrivals : List (String × Except String (List Restaurant)),
      (∀ a ∈ arrivals, isSupplementarySource a.1 = false → ∃ rs, a.2 = Except.ok rs) →
      ∃ out, collectFanOut arrivals = Except.ok out) ∧
    (∀ arrivals : List (String × Except String (List Restaurant)),
      (∃ e, collectFanOut arrivals = Except.error e) ↔
        (combinedResults arrivals = [] ∧
          ∃ a ∈ arrivals, isSupplementarySource a.1 = false ∧ ∃ e, a.2 = Except.error e)) ∧
    (∀ (arrivals : List (String × Except String (List Restaurant))) (msg : String),
      collectFanOut arrivals = Except.error msg →
      ∀ a ∈ arrivals, isSupplementarySource a.1 = false →
        ∀ e, a.2 = Except.error e → goContains msg (a.1 ++ ": " ++ e) = true) := by
  have herrstring : ∀ (a : String × Except String (List Restaurant)) (e : String),
      a.2 = Except.error e → isSupplementarySource a.1 = false →
      (a.1 ++ ": " ++ e) ∈ categoryErrorStrings [a] := by
    intro a e hae hsup
    unfold categoryErrorStrings
    simp [hae, hsup]
  have hmem : ∀ (arrivals : List (String × Except String (List Restaurant)))
      (a : String × Except String (List Restaurant)) (e : String), a ∈ arrivals →
      a.2 = Except.error e → isSupplementarySource a.1 = false →
      (a.1 ++ ": " ++ e) ∈ categoryErrorStrings arrivals := by
    intro arrivals a e ha hae hsup
    unfold categoryErrorStrings
    refine List.mem_filterMap.mpr ⟨a, ha, ?_⟩
    simp [hae, hsup]
  refine ⟨?_, ?_, ?_⟩
  · intro arrivals hok
    have herrs : categoryErrorStrings arrivals = [] := by
      rw [categoryErrorStrings, List.filterMap_eq_nil_iff]
      intro a ha
      match hae : a.2 with
      | .ok rs => simp
      | .error e =>
        by_cases hs : isSupplementarySource a.1 = true
        · simp [hs]
        · obtain ⟨rs, hrs⟩ := hok a ha (by rwa [Bool.not_eq_true] at hs)
          rw [hae] at hrs
          cases hrs
    rw [collectFanOut_unfold, if_neg (by simp [herrs])]
    exact ⟨_, rfl⟩
  · intro arrivals
    rw [collectFanOut_unfold]
    constructor
    · rintro ⟨e, he⟩
      by_cases hcond : (combinedResults arrivals).length = 0 ∧
          0 < (categoryErrorStrings arrivals).length
      · refine ⟨List.length_eq_zero.mp hcond.1, ?_⟩
        have hne : categoryErrorStrings arrivals ≠ [] := by
          intro h0
          rw [h0] at hcond
          simp at hcond
        obtain ⟨s, hs⟩ := List.exists_mem_of_ne_nil _ hne
        obtain ⟨a, ha, hfa⟩ := List.mem_filterMap.mp hs
        refine ⟨a, ha, ?_⟩
        match hae : a.2 with
        | .ok rs =>
          rw [hae] at hfa
          simp at hfa
        | .error e' =>
          rw [hae] at hfa
          by_cases hsup : isSupplementarySource a.1 = true
          · simp [hsup] at hfa
          · exact ⟨by rwa [Bool.not_eq_true] at hsup, e', rfl⟩
      · rw [if_neg hcond] at he
        cases he
    · rintro ⟨hcomb, a, ha, hsup, e, hae⟩
      have hlen : (combinedResults arrivals).length = 0 := by rw [hcomb]; rfl
      have hpos : 0 < (categoryErrorStrings arrivals).length :=
        List.length_pos.mpr (List.ne_nil_of_mem (hmem arrivals a e ha hae hsup))
      rw [if_pos ⟨hlen, hpos⟩]
      exact ⟨_, rfl⟩
  · intro arrivals msg hmsg a ha hsup e hae
    rw [collectFanOut_unfold] at hmsg
    by_cases hcond : (combinedResults arrivals).length = 0 ∧
        0 < (categoryErrorStrings arrivals).length
    · rw [if_pos hcond] at hmsg
      have hmsgeq : "all category searches failed: " ++
          stringsJoin (categoryErrorStrings arrivals) "; " = msg := by
        injection hmsg
      unfold goContains
      apply listContainsSub_complete
      rw [← hmsgeq, String.data_append]
      exact (mem_stringsJoin_part "; " (hmem arrivals a e ha hae hsup)).trans
        (List.suffix_append _ _).isInfix
    · rw [if_neg hcond] at hmsg
      cases hmsg

/-- The all-calls-time-out oracle of end-to-end scenario 3. -/
def timeoutOracle : String → Except String (List Restaurant) :=
  fun _ => Except.error "context deadline exceeded"

/-- Counterexample to C5 as stated: a `"restaurant"` fan-out with no
keyword spawns the `cuisine:`/`text:` supplementary searches; when every
call times out, the combined error lists only the failed *category*
tag — the failed supplementary query `cuisine:indian` is part of the
fan-out but its tag is absent from the message. -/
theorem fanOut_error_tags_counterexample :
    ("cuisine:indian" ∈ fanOutSources ["restaurant"] "") ∧
    findNearbyRestaurantsGoogleMultipleModel ["restaurant"] "" timeoutOracle =
      Except.error "all category searches failed: restaurant: context deadline exceeded" ∧
    goContains "all category searches failed: restaurant: context deadline exceeded"
      "cuisine:indian" = false := by
  refine ⟨by decide, ?_, by decide⟩
  rfl

/-- Witness for `fanOut_error_policy`: instantiates each
hypothesis-bearing conjunct at concrete arrivals. -/
theorem fanOut_error_policy_witness :
    (∃ out, collectFanOut [("cuisine:indian", Except.error "boom"), ("restaurant", Except.ok [])] =
      Except.ok out) ∧
    (∃ e, collectFanOut [("restaurant", Except.error "boom")] = Except.error e) ∧
    goContains "all category searches failed: restaurant: boom" ("restaurant" ++ ": " ++ "boom") =
      true := by
  refine ⟨?_, ?_, ?_⟩
  · apply fanOut_error_policy.1
    intro a ha hf
    rcases List.mem_cons.mp ha with rfl | ha2
    · exact absurd hf (by decide)
    · rcases List.mem_singleton.mp ha2 with rfl
      exact ⟨[], rfl⟩
  · apply (fanOut_error_policy.2.1 [("restaurant", Except.error "boom")]).mpr
    exact ⟨rfl, ("restaurant", Except.error "boom"), List.mem_singleton.mpr rfl,
      by decide, "boom", rfl⟩
  · exact fanOut_error_policy.2.2 [("restaurant", Except.error "boom")]
      "all category searches failed: restaurant: boom" rfl
      ("restaurant", Except.error "boom") (List.mem_singleton.mpr rfl) (by decide) "boom" rfl

/-- One provider response in the pagination loop of
`findNearbyRestaurantsGoogleByTypeWithStats`: a successful page (with or
without a continuation token) or an error message. -/
inductive FetchOutcome where
  | ok (hasNextPage : Bool)
  | err (msg : String)
  deriving Repr, DecidableEq

/-- An observable event of the pagination loop: a `time.Sleep` of `n`
seconds, or a fetch attempt of a given page index with its outcome. -/
inductive PageEvent where
  | sleepSec (n : ℕ)
  | fetch (page : ℕ) (outcome : FetchOutcome)
  deriving Repr, DecidableEq

/-- The outcome of the pagination loop: its event trace, the value of
`stats.GooglePagesSearched`, and whether the whole call returned an error
(which only a page-0 failure causes). -/
structure PageLoopResult where
  trace : List PageEvent
  pagesSearched : ℕ
  fatalError : Bool
  deriving Repr, DecidableEq

/-- The retryable-error test of the loop:
`strings.Contains(strings.ToLower(err.Error()), "invalid_request")`. -/
def containsInvalidRequest (s : String) : Bool :=
  goContains (goToLower s) "invalid_request"

/-- The pagination loop of `findNearbyRestaurantsGoogleByTypeWithStats`
in `main.go`, driven by the list of successive provider responses (one
entry consumed per request issued).  For `page > 0` the loop sleeps 2 s
before the request; an `invalid_request` error on `page > 0` sleeps
another 2 s and re-runs the same page (`page--; continue`); any other
error is fatal on page 0 and stops pagination otherwise; a successful
page increments `pagesSearched` and advances while a continuation token
is present, up to page index 2. -/
def pageLoop : ℕ → ℕ → List FetchOutcome → List PageEvent → PageLoopResult
  | _, pagesSearched, [], trace => ⟨trace, pagesSearched, false⟩
  | page, pagesSearched, o :: rest, trace =>
    if 3 ≤ page then ⟨trace, pagesSearched, false⟩
    else
      let trace1 := trace ++ (if 0 < page then [PageEvent.sleepSec 2] else []) ++
        [PageEvent.fetch page o]
      match o with
      | .err m =>
        if 0 < page ∧ containsInvalidRequest m = true then
          pageLoop page pagesSearched rest (trace1 ++ [PageEvent.sleepSec 2])
        else if page = 0 then ⟨trace1, pagesSearched, true⟩
        else ⟨trace1, pagesSearched, false⟩
      | .ok hasNext =>
        if hasNext then pageLoop (page + 1) (pagesSearched + 1) rest trace1
        else ⟨trace1, pagesSearched + 1, false⟩

/-- The pagination loop as entered by
`findNearbyRestaurantsGoogleByTypeWithStats` (page 0, empty trace). -/
def googleByTypePaginationLoop (responses : List FetchOutcome) : PageLoopResult :=
  pageLoop 0 0 responses []

/-- Recogniser for fetch attempts of a given page index. -/
def isFetchOfPage (p : ℕ) : PageEvent → Bool
  | .fetch q _ => q = p
  | _ => false

/-- A run in which page 1 answers `INVALID_REQUEST` twice before
succeeding. -/
def doubleFailureResponses : List FetchOutcome :=
  [.ok true, .err "maps: INVALID_REQUEST", .err "maps: INVALID_REQUEST", .ok false]

/-- A run in which page 1 answers `INVALID_REQUEST` once before
succeeding. -/
def singleFailureResponses : List FetchOutcome :=
  [.ok true, .err "maps: INVALID_REQUEST", .ok false]

/-- Counterexample to C4 as stated: the loop has no retry counter — when
the not-yet-ready error answers the retried request again, the same page
is retried again.  With two consecutive `INVALID_REQUEST` answers on
page 1, page 1 is fetched three times (two retries), contradicting
"retries that same page exactly once". -/
theorem pagination_retry_counterexample :
    ((googleByTypePaginationLoop doubleFailureResponses).trace.filter
      (isFetchOfPage 1)).length = 3 := by
  decide

theorem pageLoop_pagesSearched_le (responses : List FetchOutcome) :
    ∀ (page ps : ℕ) (trace : List PageEvent), page ≤ 3 →
      (pageLoop page ps responses trace).pagesSearched ≤ ps + (3 - page) := by
  induction responses with
  | nil =>
    intro page ps trace h
    simp [pageLoop]
  | cons o rest ih =>
    intro page ps trace h
    rw [pageLoop]
    by_cases h3 : 3 ≤ page
    · rw [if_pos h3]
      simp
    · rw [if_neg h3]
      match o with
      | .err m =>
        dsimp only
        by_cases hc : 0 < page ∧ containsInvalidRequest m = true
        · rw [if_pos hc]
          exact ih page ps _ h
        · rw [if_neg hc]
          by_cases hp : page = 0
          · rw [if_pos hp]
            simp
          · rw [if_neg hp]
            simp
      | .ok hasNext =>
        dsimp only
        match hasNext with
        | true =>
          rw [if_pos rfl]
          refine le_trans (ih (page + 1) (ps + 1) _ (by omega)) ?_
          omega
        | false =>
          rw [if_neg (by simp)]
          dsimp only
          omega

/-- C4 (amended): `GooglePagesSearched` never exceeds 3 for any run, and
on a not-yet-ready error at a later page the loop re-requests the *same*
page (neither advancing nor failing) after sleeping 2 s in the retry
branch plus the regular 2 s pre-page delay (4 s in total) — but it
retries for as long as the error recurs, not exactly once.  The
single-failure run exhibits the exact trace. -/
theorem pagination_retry_amended :
    (∀ responses : List FetchOutcome,
      (googleByTypePaginationLoop responses).pagesSearched ≤ 3) ∧
    ((googleByTypePaginationLoop singleFailureResponses).trace =
      [.fetch 0 (.ok true), .sleepSec 2, .fetch 1 (.err "maps: INVALID_REQUEST"),
       .sleepSec 2, .sleepSec 2, .fetch 1 (.ok false)] ∧
      (googleByTypePaginationLoop singleFailureResponses).pagesSearched = 2 ∧
      (googleByTypePaginationLoop singleFailureResponses).fatalError = false) := by
  refine ⟨?_, by decide, by decide, by decide⟩
  intro responses
  have h := pageLoop_pagesSearched_le responses 0 0 [] (by omega)
  simpa [googleByTypePaginationLoop] using h

/-- `SearchResult` from `main.go`. -/
structure SearchResult where
  restaurants : List Restaurant
  stats : SearchStats

/-- The cache-interaction core of the `/api/restaurants` HTTP handler in
`main.go`: the proximity cache is consulted only when the keyword is
empty (a hit serves the cached records/stats), and a fresh result is
written back only when the keyword is empty.  The fresh search itself is
the oracle `search`; pagination of the response body is cache-irrelevant
and out of scope. -/
noncomputable def apiRestaurantsHandler (cache : List cacheItem) (params : SearchParams)
    (now : ℝ) (search : SearchParams → Except String SearchResult) :
    Except String SearchResult × List cacheItem :=
  if params.keyword = "" then
    match LocationCache.Get cache params.lat params.lon now with
    | some (rs, st) => (Except.ok ⟨rs, st⟩, cache)
    | none =>
      match search params with
      | .error e => (Except.error e, cache)
      | .ok res => (Except.ok res,
          LocationCache.Set cache params.lat params.lon res.restaurants res.stats now)
  else
    match search params with
    | .error e => (Except.error e, cache)
    | .ok res => (Except.ok res, cache)

/-- C9: with a non-empty keyword the handler leaves the cache unchanged
and returns exactly the fresh search outcome — the cache is neither read
(the response never comes from it, whatever it contains) nor written. -/
theorem keyword_search_bypasses_cache (cache : List cacheItem) (params : SearchParams)
    (now : ℝ) (search : SearchParams → Except String SearchResult)
    (hkw : params.keyword ≠ "") :
    (apiRestaurantsHandler cache params now search).2 = cache ∧
      (apiRestaurantsHandler cache params now search).1 = search params := by
  unfold apiRestaurantsHandler
  rw [if_neg hkw]
  cases hsearch : search params <;> simp [hsearch]

/-- Witness for `keyword_search_bypasses_cache` at a concrete keyword
search. -/
theorem keyword_search_bypasses_cache_witness :
    (apiRestaurantsHandler [] ⟨0, 0, [], "vegan"⟩ 0
        (fun _ => Except.ok ⟨[], {}⟩)).2 = [] ∧
      (apiRestaurantsHandler [] ⟨0, 0, [], "vegan"⟩ 0
        (fun _ => Except.ok ⟨[], {}⟩)).1 = Except.ok ⟨[], {}⟩ :=
  keyword_search_bypasses_cache [] ⟨0, 0, [], "vegan"⟩ 0 _ (by decide)

end RestaurantSearch
